import Mathlib

/-!
# Verification of the Donna voice-interaction pipeline

Shallow embedding of the core of the `donna` repository:

* `src/donna/stt.py`   — the VAD-gated endpointer `record_until_silence`
* `src/donna/tts.py`   — chunked speech playback and `interrupt`
* `src/donna/main.py`  — trigger entry points, the interaction lock,
                         the follow-up loop and the proactive handler
* `src/donna/wake_word.py` — the wake engine's input-stream lifecycle
* `src/donna/db/conversation_db.py` — the same-day idempotence query

Pure fragments of the Python are translated into executable Lean
functions; effectful fragments are modelled by explicit state passing
and by lists of abstract effects.
-/

/-! ## Frames and per-frame speech classification (stt.py lines 271–332)

A microphone frame is its 16-bit PCM sample payload together with the
outcome of the probabilistic `webrtcvad` detector on that frame:
`some v` when `vad.is_speech` returned `v`, `none` when it raised.
-/

structure Frame where
  samples : List Int
  vadResult : Option Bool
deriving DecidableEq

/-- Sum of squared sample amplitudes (the numerator of the mean-square). -/
def sumSquares (samples : List Int) : Int :=
  samples.foldl (fun acc s => acc + s * s) 0

/-- Energy detector of stt.py line 326: `rms > STT_ENERGY_THRESHOLD` with
`rms = sqrt(mean(samples²))` (and `rms = 0.0` on an empty frame, line 301).
Since both sides are nonnegative and `sqrt` is strictly monotone, the float
comparison `sqrt(sum/n) > t` is stated exactly as `t²·n < sum`. -/
def energyIsSpeech (thresh : Nat) (samples : List Int) : Bool :=
  decide ((thresh : Int) * (thresh : Int) * (samples.length : Int) < sumSquares samples)

/-- Per-frame classification, stt.py lines 326–332:

```
is_speech = rms > STT_ENERGY_THRESHOLD
try:
    is_speech = is_speech or vad.is_speech(raw, VAD_SAMPLE_RATE)
except Exception:
    ...log once...
```

`or` short-circuits, and when `vad.is_speech` raises the assignment does
not happen, so the energy verdict survives.  Equivalently: the energy
verdict or-ed with the probabilistic verdict, an exception counting as
`false` from that detector. -/
def classifyIsSpeech (thresh : Nat) (f : Frame) : Bool :=
  energyIsSpeech thresh f.samples || f.vadResult.getD false

/-! ## The endpointer state machine (stt.py lines 244–362) -/

/-- Configuration of one `record_until_silence` run: the energy threshold
(`STT_ENERGY_THRESHOLD`), the consecutive-silence target (`silence_target`,
stt.py lines 255–257) and the ring-buffer capacity (`padding_frames`). -/
structure EPConfig where
  thresh : Nat
  silenceTarget : Nat
  cap : Nat
deriving DecidableEq

/-- The loop state of `record_until_silence`: the pre-roll ring buffer
(oldest first), the `triggered` flag, the collected `voiced_frames` and
the `silence_count` run length. -/
structure EPState where
  ring : List Frame
  triggered : Bool
  voiced : List Frame
  silenceCount : Nat
deriving DecidableEq

/-- Initial loop state (stt.py lines 246–249). -/
def epInit : EPState := ⟨[], false, [], 0⟩

/-- `collections.deque(maxlen=cap).append`: append, evicting from the
front whenever the length would exceed `cap`. -/
def ringPush (cap : Nat) (ring : List Frame) (f : Frame) : List Frame :=
  if cap < (ring ++ [f]).length then
    (ring ++ [f]).drop ((ring ++ [f]).length - cap)
  else ring ++ [f]

/-- Pushing a whole list of frames, oldest first. -/
def ringPushList (cap : Nat) (ring : List Frame) (fs : List Frame) : List Frame :=
  fs.foldl (ringPush cap) ring

/-- One iteration of the recording loop body (stt.py lines 334–351), after
the frame has been read.  Returns the new state and whether the loop
`break`s (`silence_count > silence_target`). -/
def epStep (c : EPConfig) (st : EPState) (f : Frame) : EPState × Bool :=
  if st.triggered then
    if classifyIsSpeech c.thresh f then
      (⟨st.ring, true, st.voiced ++ [f], 0⟩, false)
    else
      (⟨st.ring, true, st.voiced ++ [f], st.silenceCount + 1⟩,
        decide (c.silenceTarget < st.silenceCount + 1))
  else
    if classifyIsSpeech c.thresh f then
      (⟨[], true, st.voiced ++ ringPush c.cap st.ring f, 0⟩, false)
    else
      (⟨ringPush c.cap st.ring f, false, st.voiced, st.silenceCount⟩, false)

/-- The `while total_frames < max_frames` loop (stt.py line 263): the frame
at stream position `idx` is read next and `fuel` frames may still be read. -/
def epLoop (c : EPConfig) (stream : Nat → Frame) : Nat → Nat → EPState → EPState
  | 0, _, st => st
  | fuel + 1, idx, st =>
    if (epStep c st (stream idx)).2 then (epStep c st (stream idx)).1
    else epLoop c stream fuel (idx + 1) (epStep c st (stream idx)).1

/-- `padding_frames = 10` (stt.py line 245) — the pre-roll capacity is a
fixed constant of the source, not a configuration option. -/
def paddingFrames : Nat := 10

/-- `record_until_silence` (stt.py lines 85–362), abstracting the device
handling: the mic is the frame stream, `max_frames` comes from the timeout
(line 251), and the final `_pcm_to_wav_bytes` wrapping is the identity on
the collected frame list.  Returns `none` exactly when `voiced_frames` is
empty (lines 358–360), else the collected frames (line 362). -/
def recordUntilSilence (thresh silenceTarget maxFrames : Nat)
    (stream : Nat → Frame) : Option (List Frame) :=
  if (epLoop ⟨thresh, silenceTarget, paddingFrames⟩ stream maxFrames 0 epInit).voiced.isEmpty
  then none
  else some (epLoop ⟨thresh, silenceTarget, paddingFrames⟩ stream maxFrames 0 epInit).voiced

/-- The `count` consecutive stream frames starting at position `start`. -/
def framesOf (stream : Nat → Frame) (start : Nat) : Nat → List Frame
  | 0 => []
  | count + 1 => stream start :: framesOf stream (start + 1) count

/-- A concrete stream for exercising the triggering step with a full ring
buffer: ten quiet pre-roll frames of distinct payloads, then loud frames. -/
def c8Stream : Nat → Frame :=
  fun i => if i < 10 then ⟨[(i : Int)], some false⟩ else ⟨[11], some false⟩

/-- A concrete stream: one quiet frame, two loud frames, quiet again. -/
def c1Stream : Nat → Frame :=
  fun i => if i = 0 then ⟨[0], some false⟩
    else if i < 3 then ⟨[20], some false⟩
    else ⟨[0], some false⟩

/-! ## TTS playback and interruption (tts.py lines 133–166) -/

/-- The chunk loop of `_speak_blocking` (tts.py lines 140–150): before
chunk `i` is played the stop event is checked; `flag i` is its value at
that check.  Returns the chunks actually played. -/
def playChunks (flag : Nat → Bool) : List Nat → Nat → List Nat
  | [], _ => []
  | chunk :: rest, i =>
    if flag i then [] else chunk :: playChunks flag rest (i + 1)

/-- The module-level TTS state: the `_stop_event` flag and whether
`sd.get_stream()` reports an active stream. -/
structure TTSState where
  stopEvent : Bool
  streamActive : Bool
deriving DecidableEq

/-- `interrupt()` (tts.py lines 155–161): set `_stop_event` and issue the
device-level `sd.stop()` backstop. -/
def interrupt (s : TTSState) : TTSState :=
  { s with stopEvent := true }

/-- `is_speaking()` (tts.py lines 164–166):
`sd.get_stream() is not None and not _stop_event.is_set()`. -/
def is_speaking (s : TTSState) : Bool :=
  s.streamActive && !s.stopEvent

/-! ## Trigger entry points and the interaction lock (main.py lines 208–278) -/

/-- Observable pipeline work started by a trigger entry point. -/
inductive MainEffect where
  | ttsInterruptCall
  | sttListen
  | llmTurn
deriving DecidableEq

/-- `_on_wake` (main.py lines 208–266): bail out when muted; try a
non-blocking acquire of `_interaction_lock` and bail out silently when it
is already held; otherwise interrupt TTS, capture/transcribe speech, and
when the transcript is non-empty run `_handle_llm_response`; the lock is
released in the `finally`.  Returns the lock state after the call and the
pipeline work performed. -/
def onWake (muted lockHeld : Bool) (transcript : String) : Bool × List MainEffect :=
  if muted then (lockHeld, [])
  else if lockHeld then (lockHeld, [])
  else if transcript = "" then
    (false, [MainEffect.ttsInterruptCall, MainEffect.sttListen])
  else
    (false, [MainEffect.ttsInterruptCall, MainEffect.sttListen, MainEffect.llmTurn])

/-- `_on_text_input` (main.py lines 269–278): non-blocking acquire, bail
out silently if held, else interrupt TTS and run `_handle_llm_response`;
release in `finally`. -/
def onTextInput (lockHeld : Bool) : Bool × List MainEffect :=
  if lockHeld then (lockHeld, [])
  else (false, [MainEffect.ttsInterruptCall, MainEffect.llmTurn])

/-! ## The follow-up loop of `_handle_llm_response` (main.py lines 137–205) -/

/-- Outcome of one follow-up listening window: `record_until_silence`
returned no audio, or a transcript (possibly empty) was produced. -/
inductive FollowResult where
  | noWav
  | transcript (s : String)

/-- The `while True` loop of `_handle_llm_response` (main.py lines 150–196):
each iteration sends `cur` to the LLM and speaks the answer, then listens
for a follow-up; on no audio or an empty transcript the loop breaks;
otherwise the follow-up is accepted, `followups_remaining` is decremented
and the loop breaks once it reaches 0.  Returns the list of texts sent to
the LLM and the list of accepted follow-up transcripts. -/
def interactionLoop (listen : Nat → FollowResult) :
    Nat → Nat → String → List String × List String
  | 0, idx, cur =>
    match listen idx with
    | FollowResult.noWav => ([cur], [])
    | FollowResult.transcript s => if s = "" then ([cur], []) else ([cur], [s])
  | 1, idx, cur =>
    match listen idx with
    | FollowResult.noWav => ([cur], [])
    | FollowResult.transcript s => if s = "" then ([cur], []) else ([cur], [s])
  | r + 2, idx, cur =>
    match listen idx with
    | FollowResult.noWav => ([cur], [])
    | FollowResult.transcript s =>
      if s = "" then ([cur], [])
      else
        (cur :: (interactionLoop listen (r + 1) (idx + 1) s).1,
          s :: (interactionLoop listen (r + 1) (idx + 1) s).2)

/-- `_handle_llm_response`: the loop starts with `followups_remaining = 3`
(main.py line 149). -/
def handleLlmResponse (listen : Nat → FollowResult) (userText : String) :
    List String × List String :=
  interactionLoop listen 3 0 userText

/-! ## Proactive handler and same-day idempotence
(main.py lines 118–134, conversation_db.py lines 117–127) -/

/-- One row of the `conversations` table; `day` is the calendar date of
its timestamp (the SQL `BETWEEN day 00:00:00 AND day 23:59:59` range
check is day equality). -/
structure DBRow where
  role : String
  content : String
  day : String
deriving DecidableEq

/-- `has_assistant_message_today` (conversation_db.py lines 117–127):
is there a row with `role = 'assistant'`, exactly this `content`, and a
timestamp inside today's calendar day. -/
def has_assistant_message_today (db : List DBRow) (today content : String) : Bool :=
  db.any (fun r => r.role = "assistant" && r.content = content && r.day = today)

/-- Observable effects of the proactive handler. -/
inductive ProactiveEffect where
  | display
  | speakText
  | saveMessage
deriving DecidableEq

/-- `_on_proactive_response` (main.py lines 118–134).  The duplicate check
is run inside `try`: `Except.ok b` when `has_assistant_message_today`
returned `b`, `Except.error u` when it raised (the exception is logged and
the handler falls through).  On `ok true` the handler returns at once;
otherwise it displays the message when a window exists, speaks it, and
saves it. -/
def onProactiveResponse (hasWindow : Bool) (dupCheck : Except Unit Bool) :
    List ProactiveEffect :=
  match dupCheck with
  | Except.ok true => []
  | Except.ok false =>
    (if hasWindow then [ProactiveEffect.display] else [])
      ++ [ProactiveEffect.speakText, ProactiveEffect.saveMessage]
  | Except.error _ =>
    (if hasWindow then [ProactiveEffect.display] else [])
      ++ [ProactiveEffect.speakText, ProactiveEffect.saveMessage]

/-! ## Input-stream ownership during a wake-triggered turn
(wake_word.py lines 85–91, 100–122; stt.py lines 140, 365; main.py 166–181) -/

/-- Open/close events on the two input streams. -/
inductive StreamEvent where
  | wakeOpen
  | wakeClose
  | sttOpen
  | sttClose
deriving DecidableEq

/-- Which logical consumers currently hold an input stream open. -/
structure DeviceState where
  wakeStreamOpen : Bool
  sttStreamOpen : Bool
deriving DecidableEq

def applyStreamEvent (s : DeviceState) : StreamEvent → DeviceState
  | StreamEvent.wakeOpen => { s with wakeStreamOpen := true }
  | StreamEvent.wakeClose => { s with wakeStreamOpen := false }
  | StreamEvent.sttOpen => { s with sttStreamOpen := true }
  | StreamEvent.sttClose => { s with sttStreamOpen := false }

/-- All device states reached along a sequence of events, starting with
both streams closed. -/
def deviceStates (events : List StreamEvent) : List DeviceState :=
  events.scanl applyStreamEvent ⟨false, false⟩

/-- The stream events of a wake-triggered turn that reaches the follow-up
listening window, read off the source:
1. `WakeWordEngine.start` opens the wake stream (wake_word.py line 85) and
   it stays open for the whole turn — `pause_stream` (wake_word.py line
   100) is never called anywhere in the repository;
2. `_on_wake` captures the initial utterance from the wake engine's own
   stream (`capture_audio_for_stt`, wake_word.py line 242 — no new open);
3. the follow-up window of `_handle_llm_response` (main.py line 174) calls
   `stt.record_until_silence`, which opens a second input stream
   (`pa.open`, stt.py line 140) and closes it in its `finally`
   (stt.py line 365). -/
def wakeTurnEvents : List StreamEvent :=
  [StreamEvent.wakeOpen, StreamEvent.sttOpen, StreamEvent.sttClose]

def bothStreamsOpen (s : DeviceState) : Bool :=
  s.wakeStreamOpen && s.sttStreamOpen

/-- Modelled from the spec (for comparison with the source): the spec's
description of the triggering step — "flush the ring buffer's full
contents into the Utterance, then append the trigger frame", the ring
buffer holding the pre-roll frames seen before the trigger frame. -/
def specTriggerUtterance (cap : Nat) (preroll : List Frame) (trigger : Frame) :
    List Frame :=
  ringPushList cap [] preroll ++ [trigger]

/-! ## Theorems -/

/-! ### Auxiliary lemmas -/

lemma playChunks_length_le (flag : Nat → Bool) (k : Nat)
    (hmono : ∀ i j, i ≤ j → flag i = true → flag j = true)
    (hk : flag k = true) :
    ∀ (chunks : List Nat) (i : Nat), (playChunks flag chunks i).length ≤ k - i := by
  intro chunks
  induction chunks with
  | nil => intro i; simp [playChunks]
  | cons c rest ihc =>
    intro i
    simp only [playChunks]
    by_cases hi : flag i = true
    · simp [hi]
    · have hik : i < k := by
        by_contra hle
        push_neg at hle
        exact hi (hmono k i hle hk)
      have hr := ihc (i + 1)
      simp [hi]
      omega

lemma interactionLoop_length (listen : Nat → FollowResult) :
    ∀ (r idx : Nat) (cur : String),
      (interactionLoop listen r idx cur).1.length ≤ max r 1 ∧
      (interactionLoop listen r idx cur).2.length ≤ max r 1 := by
  intro r
  induction r using Nat.strong_induction_on with
  | _ r ih =>
    intro idx cur
    match r with
    | 0 =>
      simp only [interactionLoop]
      cases listen idx with
      | noWav => simp
      | transcript s => by_cases hs : s = "" <;> simp [hs]
    | 1 =>
      simp only [interactionLoop]
      cases listen idx with
      | noWav => simp
      | transcript s => by_cases hs : s = "" <;> simp [hs]
    | r + 2 =>
      simp only [interactionLoop]
      cases listen idx with
      | noWav => simp
      | transcript s =>
        by_cases hs : s = ""
        · simp [hs]
        · have hih := ih (r + 1) (by omega) (idx + 1) s
          simp only [hs, if_false, List.length_cons]
          constructor <;> omega

/-! ### Claim C2 -/

/-- Claim C2: for every frame, the speech classification is the
disjunction of the energy detector (RMS above the configured threshold)
and the probabilistic VAD detector; if the probabilistic detector raises
(`vadResult = none`), the classification equals the energy detector's
verdict alone — in particular a frame whose RMS exceeds the energy
threshold is classified as speech even then, and the failure never
propagates: the classification of a frame on which the detector raised is
the one it gets when the detector answers "not speech". -/
theorem claim_C2 (thresh : Nat) (f : Frame) :
    classifyIsSpeech thresh f
      = (energyIsSpeech thresh f.samples || f.vadResult.getD false) ∧
    (∀ v, f.vadResult = some v →
      classifyIsSpeech thresh f = (energyIsSpeech thresh f.samples || v)) ∧
    (f.vadResult = none →
      classifyIsSpeech thresh f = energyIsSpeech thresh f.samples) ∧
    (f.vadResult = none → energyIsSpeech thresh f.samples = true →
      classifyIsSpeech thresh f = true) ∧
    (∀ (s : List Int),
      classifyIsSpeech thresh ⟨s, none⟩ = classifyIsSpeech thresh ⟨s, some false⟩) := by
  refine ⟨rfl, ?_, ?_, ?_, ?_⟩
  · intro v hv; simp [classifyIsSpeech, hv]
  · intro h; simp [classifyIsSpeech, h]
  · intro h he; simp [classifyIsSpeech, h, he]
  · intro s; rfl

/-- Concrete instance of claim C2: a frame of one sample of amplitude 11
exceeds energy threshold 10 and is classified as speech although the
probabilistic detector raised. -/
theorem claim_C2_witness :
    classifyIsSpeech 10 ⟨[11], none⟩ = true :=
  (claim_C2 10 ⟨[11], none⟩).2.2.2.1 rfl (by decide)

/-! ### Claim C3 -/

/-- Claim C3: a trigger entry point (`_on_wake` or `_on_text_input`)
invoked while the interaction lock is already held returns with no
pipeline work at all (no STT, no LLM, no TTS interrupt) and leaves the
lock untouched; invoked with the lock free it runs the full turn — so of
two concurrent trigger calls exactly one executes an interaction turn and
the other is a silent no-op (the failed `acquire(blocking=False)` neither
blocks nor raises). -/
theorem claim_C3 (m : Bool) (t : String) :
    onWake m true t = (true, []) ∧
    onTextInput true = (true, []) ∧
    (t ≠ "" → onWake false false t =
      (false, [MainEffect.ttsInterruptCall, MainEffect.sttListen,
        MainEffect.llmTurn])) ∧
    onTextInput false = (false, [MainEffect.ttsInterruptCall, MainEffect.llmTurn]) := by
  refine ⟨?_, rfl, ?_, rfl⟩
  · cases m <;> simp [onWake]
  · intro ht; simp [onWake, ht]

/-- Concrete instance of claim C3: with the lock held both entry points
are no-ops; with it free, a wake turn with transcript "hello" runs. -/
theorem claim_C3_witness :
    onWake false true "hello" = (true, []) ∧
    onTextInput true = (true, []) ∧
    onWake false false "hello" =
      (false, [MainEffect.ttsInterruptCall, MainEffect.sttListen,
        MainEffect.llmTurn]) :=
  ⟨(claim_C3 false "hello").1, (claim_C3 false "hello").2.1,
    (claim_C3 false "hello").2.2.1 (by decide)⟩

/-! ### Claim C4 -/

/-- Claim C4 (refuting evaluation): along a wake-triggered turn that
reaches the follow-up listening window, a reachable device state has the
wake engine's input stream and the endpointer's input stream open at the
same time — `pause_stream` is never invoked, so `stt.record_until_silence`
opens its stream while the wake stream is still open. -/
theorem claim_C4_overlap :
    (deviceStates wakeTurnEvents).any bothStreamsOpen = true := by decide

/-! ### Claim C6 -/

/-- Claim C6: for every interaction turn handled by
`_handle_llm_response`, at most 3 follow-up utterances are accepted after
the initial user message and the respond/listen loop performs at most 4
LLM-response iterations, whatever further speech is detected; the loop is
a total function, so control always returns to the caller (which releases
the lock).  (In fact the source performs at most 3 LLM iterations: the
third accepted follow-up is captured but the loop breaks before sending
it to the LLM.) -/
theorem claim_C6 (listen : Nat → FollowResult) (userText : String) :
    (handleLlmResponse listen userText).1.length ≤ 4 ∧
    (handleLlmResponse listen userText).2.length ≤ 3 := by
  have h := interactionLoop_length listen 3 0 userText
  have h1 := h.1
  have h2 := h.2
  simp only [handleLlmResponse]
  constructor <;> omega

/-! ### Claim C7 -/

/-- Claim C7: once `interrupt()` has been called, no further audio chunk
begins playing — if the stop flag (monotone once set) is set by the check
before chunk `k`, at most the chunks before index `k` play, so at most the
chunk current at interruption time finishes — and immediately after
`interrupt()` returns, `is_speaking()` returns `false`. -/
theorem claim_C7 (flag : Nat → Bool) (chunks : List Nat) (k : Nat) (s : TTSState)
    (hmono : ∀ i j, i ≤ j → flag i = true → flag j = true)
    (hk : flag k = true) :
    (playChunks flag chunks 0).length ≤ k ∧
    is_speaking (interrupt s) = false := by
  constructor
  · have h := playChunks_length_le flag k hmono hk chunks 0
    omega
  · simp [is_speaking, interrupt]

/-- Concrete instance of claim C7: the stop flag set from check 2 onward
lets at most 2 of 4 chunks play, and `is_speaking` is `false` right after
`interrupt`. -/
theorem claim_C7_witness :
    (playChunks (fun i => decide (2 ≤ i)) [5, 6, 7, 8] 0).length ≤ 2 ∧
    is_speaking (interrupt ⟨false, true⟩) = false :=
  claim_C7 (fun i => decide (2 ≤ i)) [5, 6, 7, 8] 2 ⟨false, true⟩
    (by intro i j hij hi; simp only [decide_eq_true_eq] at *; omega)
    (by decide)

/-! ### Claim C9 -/

/-- Claim C9: when the idempotence check reports that the assistant
already spoke exactly this text earlier the same calendar day, the
proactive handler suppresses the message entirely — it is neither
displayed nor spoken nor saved. -/
theorem claim_C9 (db : List DBRow) (today text : String) (hasWindow : Bool)
    (h : has_assistant_message_today db today text = true) :
    onProactiveResponse hasWindow
      (Except.ok (has_assistant_message_today db today text)) = [] := by
  rw [h]
  rfl

/-- Concrete instance of claim C9: a database holding today's identical
assistant message makes the proactive handler emit nothing. -/
theorem claim_C9_witness :
    onProactiveResponse true
      (Except.ok (has_assistant_message_today
        [⟨"assistant", "Good morning", "2026-10-12"⟩] "2026-10-12" "Good morning"))
      = [] :=
  claim_C9 [⟨"assistant", "Good morning", "2026-10-12"⟩] "2026-10-12"
    "Good morning" true (by decide)

/-! ### Claim C10 -/

/-- Claim C10: if the already-spoken-today check raises, the proactive
handler fails open — the message is still displayed (when a window
exists), spoken, and saved; a failing duplicate check never suppresses a
proactive message. -/
theorem claim_C10 (e : Unit) (hasWindow : Bool) :
    onProactiveResponse hasWindow (Except.error e) =
      (if hasWindow then [ProactiveEffect.display] else [])
        ++ [ProactiveEffect.speakText, ProactiveEffect.saveMessage] ∧
    ProactiveEffect.speakText ∈ onProactiveResponse hasWindow (Except.error e) ∧
    (hasWindow = true →
      ProactiveEffect.display ∈ onProactiveResponse hasWindow (Except.error e)) ∧
    onProactiveResponse hasWindow (Except.error e) ≠ [] := by
  refine ⟨rfl, ?_, ?_, ?_⟩ <;> cases hasWindow <;> simp [onProactiveResponse]

/-- Concrete instance of claim C10: the fail-open delivery with a window
present. -/
theorem claim_C10_witness :
    onProactiveResponse true (Except.error ()) =
      [ProactiveEffect.display, ProactiveEffect.speakText,
        ProactiveEffect.saveMessage] :=
  (claim_C10 () true).1

/-! ### Endpointer lemmas -/

lemma framesOf_length (stream : Nat → Frame) :
    ∀ (count start : Nat), (framesOf stream start count).length = count := by
  intro count
  induction count with
  | zero => intro start; rfl
  | succ k ihk => intro start; simp [framesOf, ihk]

lemma framesOf_snoc (stream : Nat → Frame) :
    ∀ (count start : Nat),
      framesOf stream start (count + 1) =
        framesOf stream start count ++ [stream (start + count)] := by
  intro count
  induction count with
  | zero => intro start; simp [framesOf]
  | succ k ihk =>
    intro start
    rw [show framesOf stream start (k + 1 + 1) =
        stream start :: framesOf stream (start + 1) (k + 1) from rfl]
    rw [ihk (start + 1)]
    rw [show start + 1 + k = start + (k + 1) by omega]
    rfl

lemma ringPushList_snoc (cap : Nat) (ring : List Frame) (l : List Frame) (f : Frame) :
    ringPushList cap ring (l ++ [f]) = ringPush cap (ringPushList cap ring l) f := by
  simp [ringPushList, List.foldl_append]

lemma ringPush_length (cap : Nat) (ring : List Frame) (f : Frame) :
    (ringPush cap ring f).length = min (ring.length + 1) cap := by
  simp only [ringPush, List.length_append, List.length_cons, List.length_nil]
  split
  · simp only [List.length_drop, List.length_append, List.length_cons, List.length_nil]
    omega
  · simp only [List.length_append, List.length_cons, List.length_nil]
    omega

lemma ringPush_ne_nil (cap : Nat) (ring : List Frame) (f : Frame) (hcap : 1 ≤ cap) :
    ringPush cap ring f ≠ [] := by
  intro hnil
  have h := ringPush_length cap ring f
  rw [hnil] at h
  simp at h
  omega

lemma ringPush_eq_drop (cap : Nat) (ring : List Frame) (f : Frame) (hcap : 1 ≤ cap) :
    ringPush cap ring f = ring.drop (ring.length + 1 - cap) ++ [f] := by
  simp only [ringPush, List.length_append, List.length_cons, List.length_nil]
  split
  · rename_i h
    rw [List.drop_append_eq_append_drop]
    have h0 : ring.length + 0 + 1 - cap - ring.length = 0 := by omega
    simp only [h0, List.drop_zero]
  · rename_i h
    have h0 : ring.length + 1 - cap = 0 := by omega
    simp [h0]

lemma epStep_preroll_silent (c : EPConfig) (ring voiced : List Frame) (sc : Nat)
    (f : Frame) (h : classifyIsSpeech c.thresh f = false) :
    epStep c ⟨ring, false, voiced, sc⟩ f =
      (⟨ringPush c.cap ring f, false, voiced, sc⟩, false) := by
  simp [epStep, h]

lemma epStep_preroll_speech (c : EPConfig) (ring voiced : List Frame) (sc : Nat)
    (f : Frame) (h : classifyIsSpeech c.thresh f = true) :
    epStep c ⟨ring, false, voiced, sc⟩ f =
      (⟨[], true, voiced ++ ringPush c.cap ring f, 0⟩, false) := by
  simp [epStep, h]

lemma epStep_triggered_speech (c : EPConfig) (ring voiced : List Frame) (sc : Nat)
    (f : Frame) (h : classifyIsSpeech c.thresh f = true) :
    epStep c ⟨ring, true, voiced, sc⟩ f =
      (⟨ring, true, voiced ++ [f], 0⟩, false) := by
  simp [epStep, h]

lemma epStep_triggered_silent (c : EPConfig) (ring voiced : List Frame) (sc : Nat)
    (f : Frame) (h : classifyIsSpeech c.thresh f = false) :
    epStep c ⟨ring, true, voiced, sc⟩ f =
      (⟨ring, true, voiced ++ [f], sc + 1⟩,
        decide (c.silenceTarget < sc + 1)) := by
  simp [epStep, h]

lemma epLoop_succ_eq (c : EPConfig) (stream : Nat → Frame) (fuel idx : Nat)
    (st : EPState) :
    epLoop c stream (fuel + 1) idx st =
      if (epStep c st (stream idx)).2 then (epStep c st (stream idx)).1
      else epLoop c stream fuel (idx + 1) (epStep c st (stream idx)).1 := rfl

lemma epLoop_silent_preroll (c : EPConfig) (stream : Nat → Frame) :
    ∀ (k fuel idx : Nat) (ring voiced : List Frame) (sc : Nat),
      (∀ j, j < k → classifyIsSpeech c.thresh (stream (idx + j)) = false) →
      k ≤ fuel →
      epLoop c stream fuel idx ⟨ring, false, voiced, sc⟩ =
        epLoop c stream (fuel - k) (idx + k)
          ⟨ringPushList c.cap ring (framesOf stream idx k), false, voiced, sc⟩ := by
  intro k
  induction k with
  | zero =>
    intro fuel idx ring voiced sc _ _
    simp [framesOf, ringPushList]
  | succ k ihk =>
    intro fuel idx ring voiced sc hclass hk
    cases fuel with
    | zero => omega
    | succ fuel =>
      rw [epLoop_succ_eq,
        epStep_preroll_silent c ring voiced sc (stream idx)
          (by simpa using hclass 0 (by omega))]
      simp only [Bool.false_eq_true, if_false]
      have hclass' : ∀ j, j < k →
          classifyIsSpeech c.thresh (stream (idx + 1 + j)) = false := by
        intro j hj
        have h := hclass (j + 1) (by omega)
        rwa [show idx + (j + 1) = idx + 1 + j by omega] at h
      have e1 : fuel + 1 - (k + 1) = fuel - k := by omega
      have e2 : idx + (k + 1) = idx + 1 + k := by omega
      rw [e1, e2]
      exact ihk fuel (idx + 1) (ringPush c.cap ring (stream idx)) voiced sc
        hclass' (by omega)

lemma epLoop_trigger (c : EPConfig) (stream : Nat → Frame) (fuel idx : Nat)
    (ring voiced : List Frame) (sc : Nat)
    (h : classifyIsSpeech c.thresh (stream idx) = true) (hf : 1 ≤ fuel) :
    epLoop c stream fuel idx ⟨ring, false, voiced, sc⟩ =
      epLoop c stream (fuel - 1) (idx + 1)
        ⟨[], true, voiced ++ ringPush c.cap ring (stream idx), 0⟩ := by
  cases fuel with
  | zero => omega
  | succ fuel =>
    rw [epLoop_succ_eq, epStep_preroll_speech c ring voiced sc (stream idx) h]
    simp

lemma epLoop_speech_run (c : EPConfig) (stream : Nat → Frame) :
    ∀ (k fuel idx : Nat) (ring voiced : List Frame),
      (∀ j, j < k → classifyIsSpeech c.thresh (stream (idx + j)) = true) →
      k ≤ fuel →
      epLoop c stream fuel idx ⟨ring, true, voiced, 0⟩ =
        epLoop c stream (fuel - k) (idx + k)
          ⟨ring, true, voiced ++ framesOf stream idx k, 0⟩ := by
  intro k
  induction k with
  | zero =>
    intro fuel idx ring voiced _ _
    simp [framesOf]
  | succ k ihk =>
    intro fuel idx ring voiced hclass hk
    cases fuel with
    | zero => omega
    | succ fuel =>
      rw [epLoop_succ_eq,
        epStep_triggered_speech c ring voiced 0 (stream idx)
          (by simpa using hclass 0 (by omega))]
      simp only [Bool.false_eq_true, if_false]
      have hclass' : ∀ j, j < k →
          classifyIsSpeech c.thresh (stream (idx + 1 + j)) = true := by
        intro j hj
        have h := hclass (j + 1) (by omega)
        rwa [show idx + (j + 1) = idx + 1 + j by omega] at h
      have e1 : fuel + 1 - (k + 1) = fuel - k := by omega
      have e2 : idx + (k + 1) = idx + 1 + k := by omega
      rw [e1, e2, ihk fuel (idx + 1) ring (voiced ++ [stream idx]) hclass' (by omega)]
      simp [framesOf, List.append_assoc]

lemma epLoop_silence_run (c : EPConfig) (stream : Nat → Frame) :
    ∀ (m fuel idx : Nat) (ring voiced : List Frame) (sc : Nat),
      sc + (m + 1) = c.silenceTarget + 1 →
      m + 1 ≤ fuel →
      (∀ j, j < m + 1 → classifyIsSpeech c.thresh (stream (idx + j)) = false) →
      epLoop c stream fuel idx ⟨ring, true, voiced, sc⟩ =
        ⟨ring, true, voiced ++ framesOf stream idx (m + 1), c.silenceTarget + 1⟩ := by
  intro m
  induction m with
  | zero =>
    intro fuel idx ring voiced sc hsc hf hclass
    cases fuel with
    | zero => omega
    | succ fuel =>
      rw [epLoop_succ_eq,
        epStep_triggered_silent c ring voiced sc (stream idx)
          (by simpa using hclass 0 (by omega))]
      have hsc' : sc = c.silenceTarget := by omega
      subst hsc'
      simp [framesOf]
  | succ m ihm =>
    intro fuel idx ring voiced sc hsc hf hclass
    cases fuel with
    | zero => omega
    | succ fuel =>
      rw [epLoop_succ_eq,
        epStep_triggered_silent c ring voiced sc (stream idx)
          (by simpa using hclass 0 (by omega))]
      have hnb : decide (c.silenceTarget < sc + 1) = false := by
        simp
        omega
      rw [hnb]
      simp only [Bool.false_eq_true, if_false]
      have hclass' : ∀ j, j < m + 1 →
          classifyIsSpeech c.thresh (stream (idx + 1 + j)) = false := by
        intro j hj
        have h := hclass (j + 1) (by omega)
        rwa [show idx + (j + 1) = idx + 1 + j by omega] at h
      rw [ihm fuel (idx + 1) ring (voiced ++ [stream idx]) (sc + 1)
        (by omega) (by omega) hclass']
      simp [framesOf, List.append_assoc]

lemma epLoop_voiced_invariant (c : EPConfig) (stream : Nat → Frame)
    (hcap : 1 ≤ c.cap) :
    ∀ (fuel idx : Nat) (st : EPState),
      (st.triggered = true → st.voiced ≠ []) →
      ((epLoop c stream fuel idx st).triggered = true →
        (epLoop c stream fuel idx st).voiced ≠ []) := by
  intro fuel
  induction fuel with
  | zero => intro idx st h; exact h
  | succ fuel ih =>
    intro idx st h
    have hstep : (epStep c st (stream idx)).1.triggered = true →
        (epStep c st (stream idx)).1.voiced ≠ [] := by
      rcases st with ⟨ring, tr, voiced, sc⟩
      cases tr with
      | false =>
        by_cases hc : classifyIsSpeech c.thresh (stream idx) = true
        · rw [epStep_preroll_speech c ring voiced sc _ hc]
          intro _ hemp
          rw [List.append_eq_nil] at hemp
          exact ringPush_ne_nil c.cap ring (stream idx) hcap hemp.2
        · rw [epStep_preroll_silent c ring voiced sc _
            (by simpa using hc)]
          intro htr
          simp at htr
      | true =>
        by_cases hc : classifyIsSpeech c.thresh (stream idx) = true
        · rw [epStep_triggered_speech c ring voiced sc _ hc]
          intro _
          simp
        · rw [epStep_triggered_silent c ring voiced sc _ (by simpa using hc)]
          intro _
          simp
    rw [epLoop_succ_eq]
    split
    · exact hstep
    · exact ih (idx + 1) (epStep c st (stream idx)).1 hstep

lemma recordUntilSilence_voiced (thresh S maxF : Nat) (stream : Nat → Frame)
    (hne : (epLoop ⟨thresh, S, paddingFrames⟩ stream maxF 0 epInit).voiced ≠ []) :
    recordUntilSilence thresh S maxF stream =
      some (epLoop ⟨thresh, S, paddingFrames⟩ stream maxF 0 epInit).voiced := by
  unfold recordUntilSilence
  cases hv : (epLoop ⟨thresh, S, paddingFrames⟩ stream maxF 0 epInit).voiced with
  | nil => exact absurd hv hne
  | cons a l => simp [hv]

/-! ### Claim C1 -/

/-- Claim C1: in a run of the endpointer in which `p` non-speech frames
are followed by `n ≥ 1` speech frames and then by more than `S` (= the
silence target) consecutive non-speech frames, all before the frame
timeout, the returned utterance consists of exactly the ring-buffered
pre-roll (the ring buffer's contents at trigger time, which end with the
trigger frame), then every frame read while triggered — the remaining
`n - 1` speech frames and the full trailing run of `S + 1` silent frames.
No trailing-silence trimming is performed. -/
theorem claim_C1 (thresh S maxF : Nat) (stream : Nat → Frame) (p n : Nat)
    (hn : 1 ≤ n)
    (hfit : p + n + S + 1 ≤ maxF)
    (hpre : ∀ j, j < p → classifyIsSpeech thresh (stream j) = false)
    (hsp : ∀ j, j < n → classifyIsSpeech thresh (stream (p + j)) = true)
    (hpost : ∀ j, j < S + 1 → classifyIsSpeech thresh (stream (p + n + j)) = false) :
    recordUntilSilence thresh S maxF stream =
      some ((ringPushList paddingFrames [] (framesOf stream 0 (p + 1))
        ++ framesOf stream (p + 1) (n - 1))
        ++ framesOf stream (p + n) (S + 1)) := by
  have h1 := epLoop_silent_preroll ⟨thresh, S, paddingFrames⟩ stream p maxF 0 [] [] 0
    (fun j hj => by rw [Nat.zero_add]; exact hpre j hj) (by omega)
  rw [show (0 : Nat) + p = p by omega] at h1
  have h2 := epLoop_trigger ⟨thresh, S, paddingFrames⟩ stream (maxF - p) p
    (ringPushList paddingFrames [] (framesOf stream 0 p)) [] 0
    (by have h := hsp 0 (by omega); rwa [Nat.add_zero] at h) (by omega)
  simp only [List.nil_append] at h2
  have hR : ringPushList paddingFrames [] (framesOf stream 0 (p + 1)) =
      ringPush paddingFrames
        (ringPushList paddingFrames [] (framesOf stream 0 p)) (stream p) := by
    rw [framesOf_snoc stream p 0, ringPushList_snoc, show (0 : Nat) + p = p by omega]
  rw [← hR] at h2
  have h3 := epLoop_speech_run ⟨thresh, S, paddingFrames⟩ stream (n - 1)
    (maxF - p - 1) (p + 1) []
    (ringPushList paddingFrames [] (framesOf stream 0 (p + 1)))
    (fun j hj => by
      have h := hsp (j + 1) (by omega)
      rwa [show p + (j + 1) = p + 1 + j by omega] at h)
    (by omega)
  rw [show p + 1 + (n - 1) = p + n by omega,
    show maxF - p - 1 - (n - 1) = maxF - (p + n) by omega] at h3
  have h4 := epLoop_silence_run ⟨thresh, S, paddingFrames⟩ stream S
    (maxF - (p + n)) (p + n) []
    (ringPushList paddingFrames [] (framesOf stream 0 (p + 1))
      ++ framesOf stream (p + 1) (n - 1)) 0
    (by show 0 + (S + 1) = S + 1; omega)
    (by omega)
    (fun j hj => hpost j hj)
  have hfinal := ((h1.trans h2).trans h3).trans h4
  have hne : (epLoop ⟨thresh, S, paddingFrames⟩ stream maxF 0 epInit).voiced ≠ [] := by
    rw [show (epInit : EPState) = ⟨[], false, [], 0⟩ from rfl, hfinal]
    intro hemp
    rw [List.append_eq_nil] at hemp
    have hlen := framesOf_length stream (S + 1) (p + n)
    rw [hemp.2] at hlen
    simp at hlen
  rw [recordUntilSilence_voiced thresh S maxF stream hne]
  rw [show (epInit : EPState) = ⟨[], false, [], 0⟩ from rfl, hfinal]

/-- Concrete instance of claim C1: one quiet frame, two loud frames, then
silence with target 1 — the utterance is the two buffered frames, the
second loud frame, and the two trailing silent frames. -/
theorem claim_C1_witness :
    recordUntilSilence 10 1 6 c1Stream =
      some ((ringPushList paddingFrames [] (framesOf c1Stream 0 2)
        ++ framesOf c1Stream 2 1) ++ framesOf c1Stream 3 2) :=
  claim_C1 10 1 6 c1Stream 1 2 (by decide) (by decide)
    (by decide) (by decide) (by decide)

/-! ### Claim C5 -/

/-- Claim C5: feeding the endpointer only frames classified as non-speech
makes it stop after the configured maximum frame count and return the
no-speech outcome `none` (the run is a total function — no exception);
and whenever speech was triggered, whatever happens afterwards (in
particular when the silence run never exceeds the threshold before the
timeout), the outcome is success: `some` of everything collected so far. -/
theorem claim_C5 (thresh S maxF : Nat) (stream : Nat → Frame) :
    ((∀ i, classifyIsSpeech thresh (stream i) = false) →
      recordUntilSilence thresh S maxF stream = none) ∧
    ((epLoop ⟨thresh, S, paddingFrames⟩ stream maxF 0 epInit).triggered = true →
      recordUntilSilence thresh S maxF stream =
        some (epLoop ⟨thresh, S, paddingFrames⟩ stream maxF 0 epInit).voiced) := by
  constructor
  · intro hall
    have h := epLoop_silent_preroll ⟨thresh, S, paddingFrames⟩ stream maxF maxF 0
      [] [] 0 (fun j _ => hall (0 + j)) (le_refl maxF)
    unfold recordUntilSilence
    rw [show (epInit : EPState) = ⟨[], false, [], 0⟩ from rfl, h, Nat.sub_self]
    simp [epLoop]
  · intro htr
    have hne := epLoop_voiced_invariant ⟨thresh, S, paddingFrames⟩ stream
      (by show (1 : Nat) ≤ paddingFrames; decide) maxF 0 epInit
      (by intro hh; simp [epInit] at hh) htr
    exact recordUntilSilence_voiced thresh S maxF stream hne

/-- Concrete instance of claim C5: a stream of quiet frames yields `none`
after the 4-frame timeout; a stream of loud frames (silence target never
exceeded before the timeout) yields `some` of the collected frames. -/
theorem claim_C5_witness :
    recordUntilSilence 10 2 4 (fun _ => ⟨[0], some false⟩) = none ∧
    recordUntilSilence 10 2 4 (fun _ => ⟨[99], some false⟩) =
      some (epLoop ⟨10, 2, paddingFrames⟩
        (fun _ => ⟨[99], some false⟩) 4 0 epInit).voiced :=
  ⟨(claim_C5 10 2 4 (fun _ => ⟨[0], some false⟩)).1 (fun i => by decide),
   (claim_C5 10 2 4 (fun _ => ⟨[99], some false⟩)).2 (by decide)⟩

/-! ### Claim C8 -/

/-- Claim C8, counterexample: the claim says that on a speech frame in the
pre-roll state the ring buffer's full contents are flushed into the
utterance and the trigger frame is then appended — so that with ten
buffered pre-roll frames the utterance would begin with all ten of them
followed by the trigger frame (`specTriggerUtterance`).  The source
instead appends the trigger frame to the ring buffer first (evicting the
oldest pre-roll frame, `collections.deque(maxlen=10)`) and flushes the
buffer, so the run on `c8Stream` (ten quiet frames, then a loud one)
produces a 10-frame utterance without the oldest pre-roll frame, not the
claim's 11-frame one. -/
theorem claim_C8_counterexample :
    recordUntilSilence 10 0 11 c8Stream ≠
      some (specTriggerUtterance paddingFrames (framesOf c8Stream 0 10)
        (c8Stream 10)) := by
  decide

/-- Claim C8 (amended): when a frame classified as speech arrives in the
pre-roll (not-yet-triggered) state, the endpointer first appends the
trigger frame to the ring buffer — evicting the oldest buffered frame when
the buffer is full — then transitions to triggered, flushes the buffer's
full contents (which end with the trigger frame) into the utterance, and
resets the silence run-length counter to 0; so the utterance begins with
the most recent at-most-`cap - 1` pre-roll frames followed by the trigger
frame, which appears exactly once. -/
theorem claim_C8_amended (c : EPConfig) (ring voiced : List Frame) (sc : Nat)
    (f : Frame) (hsp : classifyIsSpeech c.thresh f = true) (hcap : 1 ≤ c.cap) :
    epStep c ⟨ring, false, voiced, sc⟩ f =
      (⟨[], true, voiced ++ ringPush c.cap ring f, 0⟩, false) ∧
    ringPush c.cap ring f = ring.drop (ring.length + 1 - c.cap) ++ [f] :=
  ⟨epStep_preroll_speech c ring voiced sc f hsp,
    ringPush_eq_drop c.cap ring f hcap⟩

/-- Concrete instance of the amended claim C8: triggering with a full
10-frame ring buffer flushes the 9 most recent pre-roll frames followed
by the trigger frame, and resets the silence counter. -/
theorem claim_C8_amended_witness :
    epStep ⟨10, 0, 10⟩ ⟨framesOf c8Stream 0 10, false, [], 0⟩ (c8Stream 10) =
      (⟨[], true, [] ++ ringPush 10 (framesOf c8Stream 0 10) (c8Stream 10), 0⟩,
        false) ∧
    ringPush 10 (framesOf c8Stream 0 10) (c8Stream 10) =
      (framesOf c8Stream 0 10).drop ((framesOf c8Stream 0 10).length + 1 - 10)
        ++ [c8Stream 10] :=
  claim_C8_amended ⟨10, 0, 10⟩ (framesOf c8Stream 0 10) [] 0 (c8Stream 10)
    (by decide) (by decide)
